import Mathlib

/-
  Verification of the Object3D behavior module
  (src/packages/engine/src/common/behaviors/Object3DBehaviors.ts) and the
  GameObject class of the xr3ngine repository.

  The module is a thin adapter between an entity-component system (ECS) and
  an external 3D scene graph.  The embedding below models:
    - JS values and the dotted-path property application (applyDeepValue),
    - scene-graph nodes as finite trees of node records with numeric
      identities (three.js Object3D instances),
    - the ECS world: per-entity component lists, an aliveness map and a
      removal log (the ECS runtime itself is not part of the sources; its
      component CRUD is modelled from the spec),
    - the four operations addObject3DComponent, removeObject3DComponent,
      remove and getObject3D, and the tag dispatch getComponentTags.

  Functions that can raise a JS TypeError are modelled with Option; a none
  result marks the exception.
-/

namespace XR3

/-- JS runtime values as far as the module observes them: numbers, strings,
booleans, null, instances of the external Color class, and plain objects
(field lists in insertion order).  A field that is absent models the JS
value undefined. -/
inductive JSVal where
  | num (n : Int)
  | str (s : String)
  | boolean (b : Bool)
  | nullv
  | color (c : Int)
  | obj (fields : List (String × JSVal))

/-- Truthiness test of a JS value: models the implicit boolean conversion in
the guard of the form if (!subj).  Objects and Color instances are always
truthy; 0, the empty string, false and null are falsy. -/
def falsy : JSVal → Bool
  | .num n => n == 0
  | .str s => s.isEmpty
  | .boolean b => !b
  | .nullv => true
  | .color _ => false
  | .obj _ => false

/-- First-occurrence lookup in a field list; models JS property access,
where a missing key reads as undefined. -/
def assocField : List (String × JSVal) → String → Option JSVal
  | [], _ => none
  | (k2, v) :: rest, k => if k2 = k then some v else assocField rest k

/-- Property read on a JS value.  Primitive values expose no properties in
this model. -/
def lookupField : JSVal → String → Option JSVal
  | .obj fs, k => assocField fs k
  | _, _ => none

/-- Assignment to a field of a field list: replaces the first occurrence and
otherwise appends, as JS property assignment does. -/
def setFields : List (String × JSVal) → String → JSVal → List (String × JSVal)
  | [], k, v => [(k, v)]
  | (k2, w) :: rest, k, v =>
      if k2 = k then (k2, v) :: rest else (k2, w) :: setFields rest k v

/-- Property write on a JS value; writes to primitives are silently lost,
as in non-strict JS. -/
def setField : JSVal → String → JSVal → JSVal
  | .obj fs, k, v => .obj (setFields fs k v)
  | s, _, _ => s

/-- Tests whether a value is an instance of the external Color class. -/
def isColorVal : JSVal → Bool
  | .color _ => true
  | _ => false

/-- Tests for typeof value being number or string. -/
def isNumOrStr : JSVal → Bool
  | .num _ => true
  | .str _ => true
  | _ => false

/-- Modelled from the spec: the color constructor of the external 3D
library, constructible from numeric or string input (new Color(value)).
The concrete encoding of the produced color is irrelevant to the claims;
only that the assigned field equals the result of this constructor. -/
def mkColor : JSVal → JSVal
  | .num n => .color n
  | .str s => .color (Int.ofNat s.length)
  | v => v

/-- Scanner splitting a character list into the maximal runs of non-dot
characters, the accumulator holding the current run reversed. -/
def segsOfChars : List Char → List Char → List String
  | [], cur => if cur.isEmpty then [] else [String.mk cur.reverse]
  | c :: rest, cur =>
    if c = '.' then
      (if cur.isEmpty then [] else [String.mk cur.reverse]) ++ segsOfChars rest []
    else segsOfChars rest (c :: cur)

/-- Splits a dotted path into its segments, the maximal runs of non-dot
characters: the unanchored regex of applyDeepValue finds the first such run
at every level and therefore skips dots before the first segment and
between segments.  Whether the recursion ends in an assignment or instead
dead-ends after the last segment depends on the trailing run of dots of the
path and is recorded separately by danglingB below. -/
def parseSegs (path : String) : List String :=
  segsOfChars path.data []

/-- The recursive worker applyDeepValue of addObject3DComponent, on the
pre-split segment list, in the case of a path that does not end in a run of
two or more dots.  Returns the updated subject together with a flag
recording whether the console warning (subj is not an object) fired.  The
order of checks follows the source: the truthiness guard on subj comes
first, then the path match, then the existence check of the property, then
either the recursion on the next path or the assignment, with the Color
conversion applied when the existing field holds a Color instance and the
supplied value is a number or a string.  The general case, the dead-end
after a trailing dot run included, is applyDeepD below. -/
def applyDeep (subj : JSVal) (segs : List String) (value : JSVal) : JSVal × Bool :=
  if falsy subj then (subj, true)
  else
    match segs with
    | [] => (subj, false)
    | p :: rest =>
      match lookupField subj p with
      | none => (subj, false)
      | some sub =>
        match rest with
        | [] =>
          let v2 := if isColorVal sub && isNumOrStr value then mkColor value else value
          (setField subj p v2, false)
        | _ :: _ =>
          let r := applyDeep sub rest value
          (setField subj p r.1, r.2)

/-- Reads the value reached by a segment path. -/
def readPath : JSVal → List String → Option JSVal
  | v, [] => some v
  | v, p :: rest => match lookupField v p with
    | some sub => readPath sub rest
    | none => none

/-- Decides whether the applyDeep traversal reaches a falsy subject, which
is exactly the situation in which the source logs its warning. -/
def reachesFalsy : JSVal → List String → Bool
  | subj, segs =>
    if falsy subj then true
    else
      match segs with
      | [] => false
      | p :: rest =>
        match lookupField subj p with
        | none => false
        | some sub =>
          match rest with
          | [] => false
          | _ :: _ => reachesFalsy sub rest

/-- Decides whether the traversal stops at a truthy subject on which a
non-final path segment does not exist. -/
def missesIntermediate : JSVal → List String → Bool
  | subj, segs =>
    if falsy subj then false
    else
      match segs with
      | [] => false
      | p :: rest =>
        match rest with
        | [] => false
        | _ :: _ =>
          match lookupField subj p with
          | none => true
          | some sub => missesIntermediate sub rest

/-- One property-map entry applied to the property space of a node, that
is, one applyDeepValue call of the Object.keys forEach loop. -/
def applyArgsStep (fs : List (String × JSVal)) (kv : String × JSVal) :
    List (String × JSVal) × Bool :=
  match applyDeep (.obj fs) (parseSegs kv.1) kv.2 with
  | (.obj fs2, w) => (fs2, w)
  | (_, w) => (fs, w)

/-- The whole forEach loop over Object.keys of objArgs, in key insertion
order. -/
def applyArgsList (fs : List (String × JSVal)) (kvs : List (String × JSVal)) :
    List (String × JSVal) :=
  kvs.foldl (fun acc kv => (applyArgsStep acc kv).1) fs

/-- Modelled from the spec: the material metadata chain
material.userData.gltfExtensions.MOZ_lightmap of the external library,
collapsed to one boolean that is true exactly when the chain is present and
truthy. -/
structure Material where
  mozLightmap : Bool := false
deriving DecidableEq

/-- One scene-graph node record: the runtime subtype markers probed by the
tag dispatch, the shadow flags, the optional material, the open property
space addressed by dotted paths of objArgs, the weak entity back-reference
and a numeric object identity.  The marker fields stand outside the props
list here; the interaction of dotted paths with the fields the attachment
itself writes (the shadow flags and the back-reference) is analysed on the
unified field view VTree above. -/
structure NodeData where
  id : Nat
  type : String := ""
  panner : Bool := false
  isCamera : Bool := false
  isOrthographicCamera : Bool := false
  isPerspectiveCamera : Bool := false
  isArrayCamera : Bool := false
  isImmediateRenderObject : Bool := false
  isLight : Bool := false
  isAmbientLight : Bool := false
  isDirectionalLight : Bool := false
  isHemisphereLight : Bool := false
  isPointLight : Bool := false
  isRectAreaLight : Bool := false
  isSpotLight : Bool := false
  isLightProbe : Bool := false
  isAmbientLightProbe : Bool := false
  isHemisphereLightProbe : Bool := false
  isBone : Bool := false
  isGroup : Bool := false
  isLOD : Bool := false
  isMesh : Bool := false
  isInstancedMesh : Bool := false
  isSkinnedMesh : Bool := false
  isLine : Bool := false
  isLineLoop : Bool := false
  isLineSegments : Bool := false
  isPoints : Bool := false
  isSprite : Bool := false
  isScene : Bool := false
  isSky : Bool := false
  castShadow : Bool := false
  receiveShadow : Bool := false
  material : Option Material := none
  props : List (String × JSVal) := []
  entity : Option Nat := none

/-- A scene-graph subtree: a node record together with its child list.
Parent links of three.js are represented implicitly by the tree structure
of the forest below the global scene root. -/
inductive OTree where
  | mk (data : NodeData) (children : List OTree)

/-- Root record of a subtree. -/
def OTree.dataOf : OTree → NodeData
  | .mk d _ => d

/-- Root identity of a subtree. -/
def OTree.idOf : OTree → Nat
  | .mk d _ => d.id

/-- All node records of a forest in preorder (each root before its
descendants), the visit order of the three.js traverse method. -/
def nodesF : List OTree → List NodeData
  | [] => []
  | .mk d cs :: ts => d :: (nodesF cs ++ nodesF ts)

/-- All node identities of a forest in preorder. -/
def idsF (f : List OTree) : List Nat :=
  (nodesF f).map (fun d => d.id)

/-- Applies a record transformation to every node of a forest; models a
three.js traverse whose callback only mutates the visited node. -/
def omapF (g : NodeData → NodeData) : List OTree → List OTree
  | [] => []
  | .mk d cs :: ts => .mk (g d) (omapF g cs) :: omapF g ts

/-- Applies a record transformation to every node of one subtree. -/
def omapT (g : NodeData → NodeData) : OTree → OTree
  | .mk d cs => .mk (g d) (omapF g cs)

/-- Finds the first subtree (in preorder) whose root carries the given
identity. -/
def findF (i : Nat) : List OTree → Option OTree
  | [] => none
  | .mk d cs :: ts =>
    if d.id = i then some (.mk d cs)
    else
      match findF i cs with
      | some t => some t
      | none => findF i ts

/-- Detaches the first subtree (in preorder) whose root carries the given
identity, returning it with the remaining forest; models removal of a node
from its parent through the child-list surgery of three.js remove. -/
def extractF (i : Nat) : List OTree → Option (OTree × List OTree)
  | [] => none
  | .mk d cs :: ts =>
    if d.id = i then some (.mk d cs, ts)
    else
      match extractF i cs with
      | some (t, cs2) => some (t, .mk d cs2 :: ts)
      | none =>
        match extractF i ts with
        | some (t, ts2) => some (t, .mk d cs :: ts2)
        | none => none

/-- Detaches a direct child of the scene root only; models the call
Engine.scene.remove(object3d), which inspects direct children and is a
no-op for deeper nodes. -/
def removeTopF (i : Nat) : List OTree → Option (OTree × List OTree)
  | [] => none
  | t :: ts =>
    if t.idOf = i then some (t, ts)
    else
      match removeTopF i ts with
      | some (s, ts2) => some (s, t :: ts2)
      | none => none

/-- Appends a subtree to the child list of every node carrying the given
identity; models parentNode.add(object3d).  Scene graphs handled by the
module carry pairwise distinct identities, making the target unique. -/
def insertUnderF (i : Nat) (obj : OTree) : List OTree → List OTree
  | [] => []
  | .mk d cs :: ts =>
    if d.id = i then .mk d (cs ++ [obj]) :: insertUnderF i obj ts
    else .mk d (insertUnderF i obj cs) :: insertUnderF i obj ts

/-- Clears the entity back-reference of every node carrying the given
identity, leaving the topology unchanged. -/
def clearEntityAtF (i : Nat) : List OTree → List OTree
  | [] => []
  | .mk d cs :: ts =>
    .mk (if d.id = i then { d with entity := none } else d)
      (clearEntityAtF i cs) :: clearEntityAtF i ts

/-- Collects, in preorder, the entities referenced by the weak
back-references of a forest; the visit order of the traverse callback in
the cascading removal. -/
def collectF : List OTree → List Nat
  | [] => []
  | .mk d cs :: ts =>
    (match d.entity with | some b => [b] | none => []) ++ (collectF cs ++ collectF ts)

/-- Record transformation clearing the weak entity back-reference. -/
def clearEnt (d : NodeData) : NodeData := { d with entity := none }

/-- Sets the weak back-reference of the root node, the assignment
object3d.entity given in the attachment. -/
def setRootEntity (t : OTree) (e : Nat) : OTree :=
  match t with
  | .mk d cs => .mk { d with entity := some e } cs

/-- Clears the weak back-reference of the root node only, the assignment
object3d.entity = null of the detachment. -/
def clearRootEntity (t : OTree) : OTree :=
  match t with
  | .mk d cs => .mk { d with entity := none } cs

/-- The zero-data marker components of Object3DTagComponents.ts together
with the SkyboxComponent, one constructor per component class pushed by
getComponentTags. -/
inductive TagC where
  | positionalAudio
  | audio
  | audioListener
  | camera
  | orthographicCamera
  | perspectiveCamera
  | arrayCamera
  | cubeCamera
  | immediateRenderObject
  | light
  | ambientLight
  | directionalLight
  | hemisphereLight
  | pointLight
  | rectAreaLight
  | spotLight
  | lightProbe
  | ambientLightProbe
  | hemisphereLightProbe
  | bone
  | group
  | lod
  | mesh
  | instancedMesh
  | skinnedMesh
  | line
  | lineSegments
  | points
  | sprite
  | scene
  | skybox
deriving DecidableEq

/-- Component classes: the Scene-Node Reference component class
(Object3DComponent) and one class per tag component. -/
inductive CompType where
  | object3D
  | tag (t : TagC)
deriving DecidableEq

/-- Component instances attached to entities: the Scene-Node Reference
holding its value field (the referenced node identity, or none when the
value is undefined), and the zero-data tag components. -/
inductive Comp where
  | object3D (value : Option Nat)
  | tag (t : TagC)
deriving DecidableEq

/-- Class of a component instance. -/
def compTypeOf : Comp → CompType
  | .object3D _ => .object3D
  | .tag _t => .tag _t

/-- Modelled from the spec: the static marker isObject3DTagComponent on the
component classes whose type is an Object3D-subtype tag; the classes of the
section 4.1 dispatch table carry it, the Scene-Node Reference class does
not. -/
def isObject3DTagComponent : CompType → Bool
  | .object3D => false
  | .tag _ => true

/-- ECS world state as the module observes it: the component list of every
entity in attachment order (the live componentTypes list), the aliveness of
entities, the log of removeEntity requests with their immediate flag, and
the child forest of the global scene root (Engine.scene). -/
structure World where
  comps : Nat → List Comp
  alive : Nat → Bool
  removalLog : List (Nat × Bool)
  scene : List OTree

/-- Modelled from the spec: ECS addComponent.  An entity holds at most one
component per class, hence adding an already-present class is a no-op;
otherwise the component is appended to the component list. -/
def addComp (l : List Comp) (c : Comp) : List Comp :=
  if l.any (fun x => compTypeOf x == compTypeOf c) then l else l ++ [c]

/-- Modelled from the spec: ECS addComponent on the world. -/
def addComponentW (w : World) (e : Nat) (c : Comp) : World :=
  { w with comps := fun x => if x = e then addComp (w.comps x) c else w.comps x }

/-- Modelled from the spec: ECS hasComponent. -/
def hasComponentW (w : World) (e : Nat) (ct : CompType) : Bool :=
  (w.comps e).any (fun c => compTypeOf c == ct)

/-- Modelled from the spec: ECS getComponent for the Scene-Node Reference
class.  Returns none when the entity holds no such component (the JS value
undefined), and otherwise the value field of the component. -/
def getO3DComp (w : World) (e : Nat) : Option (Option Nat) :=
  (w.comps e).findSome? (fun c => match c with
    | Comp.object3D v => some v
    | _ => none)

/-- Node lookup of the module: getObject3D returns component and
component.value, hence an absent result both when the component is missing
and when its value is undefined. -/
def getObject3D (w : World) (e : Nat) : Option Nat :=
  match getO3DComp w e with
  | some (some n) => some n
  | _ => none

/-- Modelled from the spec: ECS removeComponent, deleting the component of
the given class from the list. -/
def removeCompType (l : List Comp) (ct : CompType) : List Comp :=
  l.filter (fun c => !(compTypeOf c == ct))

/-- Modelled from the spec: ECS removeEntity with its immediate/deferred
flag.  The entity stops being alive and the request is logged with its
flag; component disposal of dead entities is left to the ECS runtime. -/
def removeEntity (w : World) (e : Nat) (forceImmediate : Bool) : World :=
  { w with
    alive := fun x => if x = e then false else w.alive x,
    removalLog := w.removalLog ++ [(e, forceImmediate)] }

/-- One iteration of the reverse scan of removeObject3DComponent: inspects
the component at the given index and removes it in place when its class is
marked as an Object3D-subtype tag. -/
def tagRemovalStep (l : List Comp) (i : Nat) : List Comp :=
  match l[i]? with
  | some c => if isObject3DTagComponent (compTypeOf c) then l.eraseIdx i else l
  | none => l

/-- The for loop of removeObject3DComponent running the index from the
given bound minus one down to zero over the live component list. -/
def tagRemovalLoop (l : List Comp) : Nat → List Comp
  | 0 => l
  | i + 1 => tagRemovalLoop (tagRemovalStep l i) i

/-- Main else-if chain of getComponentTags, transcribed branch for branch
from the source.  A push onto the components array is modelled as a list
append, so every branch contributes the list of its pushes: the primary
subtype tag followed by the secondary pushes of the camera, light,
light-probe, mesh and line branches, with the line-loop case pushing the
HemisphereLightProbe tag exactly as the source does. -/
def tagChain (o : NodeData) : List TagC :=
  if o.type = "Audio" ∧ o.panner = true then [TagC.positionalAudio]
  else if o.type = "Audio" then [TagC.audio]
  else if o.type = "AudioListener" then [TagC.audioListener]
  else if o.isCamera = true then
    [TagC.camera]
      ++ (if o.isOrthographicCamera = true then [TagC.orthographicCamera]
          else if o.isPerspectiveCamera = true then [TagC.perspectiveCamera]
          else [])
      ++ (if o.isArrayCamera = true then [TagC.arrayCamera]
          else if o.type = "CubeCamera" then [TagC.cubeCamera]
          else if o.isImmediateRenderObject = true then [TagC.immediateRenderObject]
          else [])
  else if o.isLight = true then
    [TagC.light]
      ++ (if o.isAmbientLight = true then [TagC.ambientLight]
          else if o.isDirectionalLight = true then [TagC.directionalLight]
          else if o.isHemisphereLight = true then [TagC.hemisphereLight]
          else if o.isPointLight = true then [TagC.pointLight]
          else if o.isRectAreaLight = true then [TagC.rectAreaLight]
          else if o.isSpotLight = true then [TagC.spotLight]
          else [])
  else if o.isLightProbe = true then
    [TagC.lightProbe]
      ++ (if o.isAmbientLightProbe = true then [TagC.ambientLightProbe]
          else if o.isHemisphereLightProbe = true then [TagC.hemisphereLightProbe]
          else [])
  else if o.isBone = true then [TagC.bone]
  else if o.isGroup = true then [TagC.group]
  else if o.isLOD = true then [TagC.lod]
  else if o.isMesh = true then
    [TagC.mesh]
      ++ (if o.isInstancedMesh = true then [TagC.instancedMesh]
          else if o.isSkinnedMesh = true then [TagC.skinnedMesh]
          else [])
  else if o.isLine = true then
    [TagC.line]
      ++ (if o.isLineLoop = true then [TagC.hemisphereLightProbe]
          else if o.isLineSegments = true then [TagC.lineSegments]
          else [])
  else if o.isPoints = true then [TagC.points]
  else if o.isSprite = true then [TagC.sprite]
  else if o.isScene = true then [TagC.scene]
  else if o.isSky = true then [TagC.skybox]
  else []

/-- The tag dispatch getComponentTags.  The source first runs a standalone
duplicated positional-audio check that pushes the PositionalAudio tag, and
then the main else-if chain whose first branch tests the very same
condition; the push sequence therefore factors as the prefix contributed by
the duplicated leading check followed by the contribution of the chain. -/
def getComponentTags (o : NodeData) : List TagC :=
  (if o.type = "Audio" ∧ o.panner = true then [TagC.positionalAudio] else [])
    ++ tagChain o

/-- Modelled from the spec: the section 4.1 tag dispatch table, written
from the table text as a priority chain with the secondary tags of each
branch, the spec-acknowledged mislabeled Hemisphere-Light-Probe tag of the
line-loop case included, and no tag for unmatched subtypes. -/
def specTagTable (o : NodeData) : List TagC :=
  if o.type = "Audio" ∧ o.panner = true then [TagC.positionalAudio]
  else if o.type = "Audio" then [TagC.audio]
  else if o.type = "AudioListener" then [TagC.audioListener]
  else if o.isCamera = true then
    [TagC.camera]
      ++ (if o.isOrthographicCamera = true then [TagC.orthographicCamera]
          else if o.isPerspectiveCamera = true then [TagC.perspectiveCamera]
          else [])
      ++ (if o.isArrayCamera = true then [TagC.arrayCamera]
          else if o.type = "CubeCamera" then [TagC.cubeCamera]
          else if o.isImmediateRenderObject = true then [TagC.immediateRenderObject]
          else [])
  else if o.isLight = true then
    [TagC.light]
      ++ (if o.isAmbientLight = true then [TagC.ambientLight]
          else if o.isDirectionalLight = true then [TagC.directionalLight]
          else if o.isHemisphereLight = true then [TagC.hemisphereLight]
          else if o.isPointLight = true then [TagC.pointLight]
          else if o.isRectAreaLight = true then [TagC.rectAreaLight]
          else if o.isSpotLight = true then [TagC.spotLight]
          else [])
  else if o.isLightProbe = true then
    [TagC.lightProbe]
      ++ (if o.isAmbientLightProbe = true then [TagC.ambientLightProbe]
          else if o.isHemisphereLightProbe = true then [TagC.hemisphereLightProbe]
          else [])
  else if o.isBone = true then [TagC.bone]
  else if o.isGroup = true then [TagC.group]
  else if o.isLOD = true then [TagC.lod]
  else if o.isMesh = true then
    [TagC.mesh]
      ++ (if o.isInstancedMesh = true then [TagC.instancedMesh]
          else if o.isSkinnedMesh = true then [TagC.skinnedMesh]
          else [])
  else if o.isLine = true then
    [TagC.line]
      ++ (if o.isLineLoop = true then [TagC.hemisphereLightProbe]
          else if o.isLineSegments = true then [TagC.lineSegments]
          else [])
  else if o.isPoints = true then [TagC.points]
  else if o.isSprite = true then [TagC.sprite]
  else if o.isScene = true then [TagC.scene]
  else if o.isSky = true then [TagC.skybox]
  else []

/-- Variant of getComponentTags with the first, duplicated positional-audio
check removed, the comparand named by the dead-code claim: exactly the main
else-if chain. -/
def getComponentTagsSingle (o : NodeData) : List TagC :=
  tagChain o

/-- Tests whether the material of a node declares baked lightmapping, the
condition obj.material?.userData?.gltfExtensions?.MOZ_lightmap. -/
def hasLightmap (d : NodeData) : Bool :=
  match d.material with
  | some m => m.mozLightmap
  | none => false

/-- The shadow policy applied to one visited node by the traverse callback
of addObject3DComponent: meshes and skinned meshes (by type string) start
casting shadows, and start receiving them unless their material declares
baked lightmapping; the receive flag is otherwise left as it was.  The
setupMaterial call of the cascading-shadow-map helper is a renderer side
effect outside this model. -/
def shadowData (d : NodeData) : NodeData :=
  if d.type = "Mesh" ∨ d.type = "SkinnedMesh" then
    let d2 := { d with castShadow := true }
    if hasLightmap d2 = false then { d2 with receiveShadow := true } else d2
  else d

/-- The node argument of addObject3DComponent: either a pre-built instance
(typeof obj3d is object) or a constructor to instantiate. -/
inductive Obj3DArg where
  | built (t : OTree)
  | ctor (make : Unit → OTree)

/-- Instantiation step of addObject3DComponent: uses the instance or calls
the constructor. -/
def resolveObj : Obj3DArg → OTree
  | .built t => t
  | .ctor make => make ()

/-- Argument record of addObject3DComponent. -/
structure AddArgs where
  obj3d : Obj3DArg
  objArgs : Option (List (String × JSVal)) := none
  parentEntity : Option Nat := none

/-- Property application of addObject3DComponent: when objArgs is an
object, every key is applied to the property space of the node by
applyDeepValue. -/
def applyArgsTree (t : OTree) (kvs : Option (List (String × JSVal))) : OTree :=
  match kvs with
  | some l =>
    match t with
    | .mk d cs => .mk { d with props := applyArgsList d.props l } cs
  | none => t

/-- The node prepared by addObject3DComponent before it is attached:
instantiated, with objArgs applied, and with the shadow traverse run over
the whole subtree. -/
def attachedTree (a : AddArgs) : OTree :=
  omapT shadowData (applyArgsTree (resolveObj a.obj3d) a.objArgs)

/-- Node attachment (addObject3DComponent).  In source order: the node is
instantiated, objArgs are applied, the shadow traverse runs, the Scene-Node
Reference component is added with the node as value, the dispatch tags are
added, and the node is inserted under the parent node (when a parent entity
with a node is supplied) or under the global scene root, with the weak
back-reference to the entity recorded on the node.  The back-reference is
written onto the tree value before insertion; the source mutates the same
object right after insertion, with an identical final state.  When the
parent entity has a Scene-Node Reference whose value is undefined, the call
of add on undefined raises a TypeError after the components were already
added; the boolean result is false exactly in that case. -/
def addObject3DComponent (w : World) (entity : Nat) (a : AddArgs) : World × Bool :=
  let object3d := attachedTree a
  let w1 := addComponentW w entity (Comp.object3D (some object3d.idOf))
  let w2 := (getComponentTags object3d.dataOf).foldl
    (fun wa t => addComponentW wa entity (Comp.tag t)) w1
  let placed := setRootEntity object3d entity
  match a.parentEntity with
  | some p =>
    if hasComponentW w2 p CompType.object3D = true then
      match getO3DComp w2 p with
      | some (some pid) => ({ w2 with scene := insertUnderF pid placed w2.scene }, true)
      | _ => (w2, false)
    else ({ w2 with scene := w2.scene ++ [placed] }, true)
  | none => ({ w2 with scene := w2.scene ++ [placed] }, true)

/-- Node detachment (removeObject3DComponent).  The source reads the value
field of getComponent without guarding against an absent component, so an
entity with no Scene-Node Reference raises a TypeError (modelled by a none
result) before the undefined guard is reached.  With a component whose
value is undefined the function silently returns.  Otherwise the node is
removed from the direct children of the scene root, then (when unparent is
set) from its parent child list wherever it sits, the Scene-Node Reference
is removed, every component whose class is marked as an Object3D-subtype
tag is removed by the reverse index scan, and the back-reference of the
node is cleared; the detached subtree is returned for observation.  The
scene-graph part of the detachment is the step below: removal from the
direct children of the scene root, then, when unparent is set, removal from
the parent child list wherever the node sits. -/
def sceneDetachStep (nid : Nat) (unparent : Bool) (scene : List OTree) :
    Option (OTree × List OTree) :=
  match removeTopF nid scene with
  | some (t, rest) => some (t, rest)
  | none => if unparent then extractF nid scene else none

/-- Component cleanup of the detachment: the Scene-Node Reference is
removed and then the reverse index scan removes every component whose class
is marked as an Object3D-subtype tag. -/
def cleanedComps (comps : Nat → List Comp) (e : Nat) : Nat → List Comp := fun x =>
  if x = e then
    tagRemovalLoop (removeCompType (comps x) CompType.object3D)
      (removeCompType (comps x) CompType.object3D).length
  else comps x

def removeObject3DComponent (w : World) (e : Nat) (unparent : Bool) :
    Option (World × Option OTree) :=
  match getO3DComp w e with
  | none => none
  | some none => some (w, none)
  | some (some nid) =>
    match sceneDetachStep nid unparent w.scene with
    | some (t, rest) =>
      some ({ w with scene := rest, comps := cleanedComps w.comps e }, some (clearRootEntity t))
    | none =>
      some ({ w with scene := clearEntityAtF nid w.scene, comps := cleanedComps w.comps e }, none)

/-- Cascading entity removal (remove).  When the entity owns a Scene-Node
Reference, the subtree of its node is traversed: every back-referenced
entity is requested for removal with the same immediate flag and every
back-reference is cleared; the subtree is then detached from its parent and
the entity itself is removed.  The source clears back-references during the
traversal and detaches afterwards; the model detaches first and clears the
detached subtree, an identical final state with the identical removal log.
A component whose value is undefined makes the source call traverse on
undefined, a TypeError (none result).  A node that is not in the scene
graph is outside this model of the traversal; its entity is removed and no
subtree is returned. -/
def remove (w : World) (e : Nat) (forceImmediate : Bool) :
    Option (World × Option OTree) :=
  if hasComponentW w e CompType.object3D = true then
    match getObject3D w e with
    | none => none
    | some rid =>
      match extractF rid w.scene with
      | some (t, rest) =>
        let w1 := (collectF [t]).foldl (fun wa b => removeEntity wa b forceImmediate) w
        let w2 := { w1 with scene := rest }
        let w3 := removeEntity w2 e forceImmediate
        some (w3, some (omapT clearEnt t))
      | none => some (removeEntity w e forceImmediate, none)
  else some (removeEntity w e forceImmediate, none)

/-- Component classes of the GameObject model: the TransformComponent and
the other classes, abstracted by a number. -/
inductive GComp where
  | transform
  | other (n : Nat)
deriving DecidableEq

/-- Modelled from the spec: ECS addComponentToEntity used by the GameObject
constructor. -/
def addComponentToEntity (comps : List GComp) (c : GComp) : List GComp :=
  comps ++ [c]

/-- Modelled from the spec: ECS removeComponentFromEntity, deleting the
component of the given class. -/
def removeComponentFromEntity (comps : List GComp) (c : GComp) : List GComp :=
  comps.filter (fun x => x ≠ c)

/-- The GameObject constructor: the Entity base starts empty and a
TransformComponent is attached at once. -/
def gameObjectNew : List GComp :=
  addComponentToEntity [] GComp.transform

/-- The removeComponent method of GameObject: delegates to the ECS removal
for every class other than TransformComponent and ignores the request for
TransformComponent; the method returns this, hence the resulting component
set is the whole observable effect. -/
def gameObjectRemoveComponent (comps : List GComp) (c : GComp) : List GComp :=
  if c ≠ GComp.transform then removeComponentFromEntity comps c else comps

/-- Projection of a component instance to its tag, when it is one. -/
def tagOf : Comp → Option TagC
  | .tag t => some t
  | _ => none

/-- A world with no components, no scene nodes and every entity alive. -/
def emptyWorld : World :=
  { comps := fun _ => [], alive := fun _ => true, removalLog := [], scene := [] }

/-- Decides whether two segment paths lie on one root-to-leaf chain, that
is, whether one is a leading piece of the other; assignments along two such
paths can overwrite or restructure each other. -/
def chainRelated : List String → List String → Bool
  | [], _ => true
  | _ :: _, [] => true
  | p :: r1, q :: r2 => p == q && chainRelated r1 r2

/-- Concrete world of the cascading-removal scenario of the spec: a parent
entity (10) owning a three-node subtree whose two child nodes carry
back-references to two child entities (11 and 12), each child entity
holding its own Scene-Node Reference. -/
def cascadeWorld : World :=
  { comps := fun x =>
      if x = 10 then [Comp.object3D (some 1)]
      else if x = 11 then [Comp.object3D (some 2)]
      else if x = 12 then [Comp.object3D (some 3)]
      else [],
    alive := fun x => decide (x = 10 ∨ x = 11 ∨ x = 12),
    removalLog := [],
    scene := [OTree.mk { id := 1, entity := some 10 }
      [OTree.mk { id := 2, entity := some 11 } [],
       OTree.mk { id := 3, entity := some 12 } []]] }

end XR3

namespace XR3

theorem gameObject_transform_invariant (l : List GComp) (calls : List GComp)
    (h : GComp.transform ∈ l) :
    GComp.transform ∈ calls.foldl gameObjectRemoveComponent l := by
  induction calls generalizing l with
  | nil => exact h
  | cons c rest ih =>
    refine ih _ ?_
    by_cases hc : c = GComp.transform
    · subst hc
      simpa [gameObjectRemoveComponent] using h
    · have hne : GComp.transform ≠ c := fun hh => hc hh.symm
      simp [gameObjectRemoveComponent, removeComponentFromEntity, hc, List.mem_filter, h, hne]

/-- Claim C10: a GameObject carries a TransformComponent from construction
onward; removeComponent with TransformComponent leaves the component set
unchanged, removeComponent with any other class removes that class, and no
sequence of removeComponent calls can strip the TransformComponent. -/
theorem C10_gameObject_transform :
    (∀ l : List GComp, gameObjectRemoveComponent l GComp.transform = l)
    ∧ (∀ (l : List GComp) (c : GComp), c ≠ GComp.transform →
        c ∉ gameObjectRemoveComponent l c)
    ∧ GComp.transform ∈ gameObjectNew
    ∧ (∀ calls : List GComp,
        GComp.transform ∈ calls.foldl gameObjectRemoveComponent gameObjectNew) := by
  refine ⟨?_, ?_, ?_, ?_⟩
  · intro l
    simp [gameObjectRemoveComponent]
  · intro l c hc
    simp only [gameObjectRemoveComponent, removeComponentFromEntity, if_pos hc]
    simp
  · simp [gameObjectNew, addComponentToEntity]
  · intro calls
    exact gameObject_transform_invariant _ calls (by simp [gameObjectNew, addComponentToEntity])

/-- Witness for C10 at concrete inputs. -/
theorem C10_gameObject_transform_witness :
    (GComp.other 0 ≠ GComp.transform)
    ∧ GComp.other 0 ∉ gameObjectRemoveComponent [GComp.transform, GComp.other 0] (GComp.other 0) := by
  refine ⟨by decide, ?_⟩
  exact C10_gameObject_transform.2.1 [GComp.transform, GComp.other 0] (GComp.other 0) (by decide)

theorem tagChain_pos (o : NodeData) (h : o.type = "Audio" ∧ o.panner = true) :
    tagChain o = [TagC.positionalAudio] := by
  unfold tagChain
  rw [if_pos h]

theorem addComp_idem (l : List Comp) (c : Comp) :
    addComp (addComp l c) c = addComp l c := by
  by_cases h : l.any (fun x => compTypeOf x == compTypeOf c) = true
  · simp [addComp, h]
  · simp [addComp, h, List.any_append]

/-- Counterexample to claim C9 as stated: for an Audio node with a defined
panner field the source pushes the Positional-Audio tag twice, so the
returned list is not equal to the list of the variant without the first
duplicated check, and the tag occurs twice in it, not once. -/
theorem C9_duplicate_branch_counterexample :
    getComponentTags { id := 1, type := "Audio", panner := true }
      = [TagC.positionalAudio, TagC.positionalAudio]
    ∧ getComponentTagsSingle { id := 1, type := "Audio", panner := true }
      = [TagC.positionalAudio]
    ∧ (getComponentTags { id := 1, type := "Audio", panner := true }).count
        TagC.positionalAudio = 2 := by
  refine ⟨rfl, rfl, rfl⟩

/-- Claim C9, amended: the duplicated positional-audio branch is harmless
at the component level but not at the raw list level.  Folding ECS
addComponent over the returned tags gives the same component list as for
the variant without the duplicated check, and for every node other than a
positional-audio one the raw returned lists agree; for an Audio node with a
defined panner, however, the raw list contains the Positional Audio tag
twice where the variant returns it once. -/
theorem C9_duplicate_branch_amended (o : NodeData) (l : List Comp) :
    (getComponentTags o).foldl (fun cs t => addComp cs (Comp.tag t)) l
      = (getComponentTagsSingle o).foldl (fun cs t => addComp cs (Comp.tag t)) l
    ∧ (¬(o.type = "Audio" ∧ o.panner = true) →
        getComponentTags o = getComponentTagsSingle o)
    ∧ ((o.type = "Audio" ∧ o.panner = true) →
        (getComponentTags o).count TagC.positionalAudio = 2
        ∧ (getComponentTagsSingle o).count TagC.positionalAudio = 1) := by
  refine ⟨?_, ?_, ?_⟩
  · unfold getComponentTags getComponentTagsSingle
    by_cases h : o.type = "Audio" ∧ o.panner = true
    · rw [if_pos h, tagChain_pos o h]
      simp only [List.foldl, List.cons_append, List.nil_append]
      exact addComp_idem l (Comp.tag TagC.positionalAudio)
    · rw [if_neg h]
      simp
  · intro h
    unfold getComponentTags getComponentTagsSingle
    rw [if_neg h]
    simp
  · intro h
    unfold getComponentTags getComponentTagsSingle
    rw [if_pos h, tagChain_pos o h]
    exact ⟨rfl, rfl⟩

/-- Witness for C9 discharging the positional-audio hypothesis at a
concrete node. -/
theorem C9_duplicate_branch_amended_witness :
    (getComponentTags { id := 1, type := "Audio", panner := true }).count
        TagC.positionalAudio = 2 := by
  exact ((C9_duplicate_branch_amended { id := 1, type := "Audio", panner := true } []).2.2
    ⟨rfl, rfl⟩).1

/-- Claim C5 fails as a code bug: the source reads the value field of the
result of getComponent before its undefined guard, so detachment of an
entity with no Scene-Node Reference raises a TypeError (the none result)
instead of being a silent no-op. -/
theorem C5_detach_without_component_throws :
    removeObject3DComponent emptyWorld 0 true = none := rfl

theorem tagChain_eq_spec (o : NodeData) : tagChain o = specTagTable o := rfl

theorem specTagTable_nodup (o : NodeData) : (specTagTable o).Nodup := by
  unfold specTagTable
  by_cases h1 : o.type = "Audio" ∧ o.panner = true
  · rw [if_pos h1]; decide
  · rw [if_neg h1]
    by_cases h2 : o.type = "Audio"
    · rw [if_pos h2]; decide
    · rw [if_neg h2]
      by_cases h3 : o.type = "AudioListener"
      · rw [if_pos h3]; decide
      · rw [if_neg h3]
        by_cases h4 : o.isCamera = true
        · rw [if_pos h4]
          split_ifs <;> decide
        · rw [if_neg h4]
          by_cases h5 : o.isLight = true
          · rw [if_pos h5]
            split_ifs <;> decide
          · rw [if_neg h5]
            by_cases h6 : o.isLightProbe = true
            · rw [if_pos h6]
              split_ifs <;> decide
            · rw [if_neg h6]
              by_cases h7 : o.isBone = true
              · rw [if_pos h7]; decide
              · rw [if_neg h7]
                by_cases h8 : o.isGroup = true
                · rw [if_pos h8]; decide
                · rw [if_neg h8]
                  by_cases h9 : o.isLOD = true
                  · rw [if_pos h9]; decide
                  · rw [if_neg h9]
                    by_cases h10 : o.isMesh = true
                    · rw [if_pos h10]
                      split_ifs <;> decide
                    · rw [if_neg h10]
                      by_cases h11 : o.isLine = true
                      · rw [if_pos h11]
                        split_ifs <;> decide
                      · rw [if_neg h11]
                        by_cases h12 : o.isPoints = true
                        · rw [if_pos h12]; decide
                        · rw [if_neg h12]
                          by_cases h13 : o.isSprite = true
                          · rw [if_pos h13]; decide
                          · rw [if_neg h13]
                            by_cases h14 : o.isScene = true
                            · rw [if_pos h14]; decide
                            · rw [if_neg h14]
                              by_cases h15 : o.isSky = true
                              · rw [if_pos h15]; decide
                              · rw [if_neg h15]
                                decide

theorem addComp_of_not_mem (acc : List Comp) (c : Comp)
    (h : acc.any (fun x => compTypeOf x == compTypeOf c) = false) :
    addComp acc c = acc ++ [c] := by
  unfold addComp
  rw [if_neg]
  simp [h]

theorem addComp_fold_tags (tags : List TagC) (v : Option Nat) :
    ∀ acc : List Comp, tags.Nodup →
      (∀ t ∈ tags, acc.any (fun x => compTypeOf x == CompType.tag t) = false) →
      tags.foldl (fun cs t => addComp cs (Comp.tag t)) acc = acc ++ tags.map Comp.tag := by
  induction tags with
  | nil => intro acc _ _; simp
  | cons t ts ih =>
    intro acc hnd hacc
    have hstep : addComp acc (Comp.tag t) = acc ++ [Comp.tag t] :=
      addComp_of_not_mem acc (Comp.tag t) (hacc t (by simp))
    have hnotm : t ∉ ts := (List.nodup_cons.mp hnd).1
    simp only [List.foldl, hstep]
    rw [ih (acc ++ [Comp.tag t]) (List.nodup_cons.mp hnd).2 ?_]
    · simp
    · intro t2 ht2
      rw [List.any_append, hacc t2 (by simp [ht2])]
      have hne : t ≠ t2 := fun hh => hnotm (hh ▸ ht2)
      simp [compTypeOf, hne]

theorem tags_fold_fresh (o : NodeData) (v : Option Nat) :
    (getComponentTags o).foldl (fun l t => addComp l (Comp.tag t)) [Comp.object3D v]
      = Comp.object3D v :: (specTagTable o).map Comp.tag := by
  have hbase : ∀ t : TagC,
      ([Comp.object3D v]).any (fun x => compTypeOf x == CompType.tag t) = false := by
    intro t
    simp [compTypeOf]
  unfold getComponentTags
  rw [List.foldl_append]
  by_cases h : o.type = "Audio" ∧ o.panner = true
  · rw [if_pos h, tagChain_pos o h, ← tagChain_eq_spec, tagChain_pos o h]
    simp only [List.foldl]
    rw [addComp_idem, addComp_of_not_mem _ _ (hbase TagC.positionalAudio)]
    rfl
  · rw [if_neg h]
    simp only [List.foldl]
    rw [tagChain_eq_spec]
    rw [addComp_fold_tags (specTagTable o) v [Comp.object3D v] (specTagTable_nodup o)
      (fun t _ => hbase t)]
    rfl

theorem foldl_addTagW_fields (tags : List TagC) (w : World) (e : Nat) :
    ((tags.foldl (fun wa t => addComponentW wa e (Comp.tag t)) w).comps e
        = tags.foldl (fun l t => addComp l (Comp.tag t)) (w.comps e))
    ∧ (∀ x, x ≠ e →
        (tags.foldl (fun wa t => addComponentW wa e (Comp.tag t)) w).comps x = w.comps x)
    ∧ (tags.foldl (fun wa t => addComponentW wa e (Comp.tag t)) w).alive = w.alive
    ∧ (tags.foldl (fun wa t => addComponentW wa e (Comp.tag t)) w).removalLog = w.removalLog
    ∧ (tags.foldl (fun wa t => addComponentW wa e (Comp.tag t)) w).scene = w.scene := by
  induction tags generalizing w with
  | nil => exact ⟨rfl, fun x _ => rfl, rfl, rfl, rfl⟩
  | cons t ts ih =>
    simp only [List.foldl]
    refine ⟨?_, ?_, ?_, ?_, ?_⟩
    · rw [(ih (addComponentW w e (Comp.tag t))).1]
      simp [addComponentW]
    · intro x hx
      rw [(ih (addComponentW w e (Comp.tag t))).2.1 x hx]
      simp [addComponentW, hx]
    · rw [(ih (addComponentW w e (Comp.tag t))).2.2.1]
      rfl
    · rw [(ih (addComponentW w e (Comp.tag t))).2.2.2.1]
      rfl
    · rw [(ih (addComponentW w e (Comp.tag t))).2.2.2.2]
      rfl

theorem attach_comps_self (w : World) (e : Nat) (a : AddArgs) :
    ((addObject3DComponent w e a).1).comps e
      = (getComponentTags (attachedTree a).dataOf).foldl (fun l t => addComp l (Comp.tag t))
          (addComp (w.comps e) (Comp.object3D (some (attachedTree a).idOf))) := by
  unfold addObject3DComponent
  have hw1 : (addComponentW w e (Comp.object3D (some (attachedTree a).idOf))).comps e
      = addComp (w.comps e) (Comp.object3D (some (attachedTree a).idOf)) := by
    simp [addComponentW]
  cases hp : a.parentEntity with
  | none =>
    simp only [hp]
    rw [← hw1]
    exact (foldl_addTagW_fields _ _ e).1
  | some p =>
    simp only [hp]
    split <;> (try split) <;> (rw [← hw1]; exact (foldl_addTagW_fields _ _ e).1)

theorem attach_comps_fresh (w : World) (e : Nat) (a : AddArgs) (h : w.comps e = []) :
    (addObject3DComponent w e a).1.comps e
      = Comp.object3D (some (attachedTree a).idOf)
        :: (specTagTable (attachedTree a).dataOf).map Comp.tag := by
  rw [attach_comps_self, h]
  have h0 : addComp [] (Comp.object3D (some (attachedTree a).idOf))
      = [Comp.object3D (some (attachedTree a).idOf)] := rfl
  rw [h0, tags_fold_fresh]

/-- Claim C1: attaching a node attaches exactly the tag set of the section
4.1 dispatch table: for a fresh entity the tag components present after
addObject3DComponent are exactly the table entry of the node subtype; in
particular a node with the mesh and skinned-mesh markers receives exactly
the Mesh and Skinned-Mesh tags, and a node matching no branch receives
zero tags. -/
theorem C1_tag_dispatch :
    (∀ (w : World) (e : Nat) (a : AddArgs), w.comps e = [] →
      ((addObject3DComponent w e a).1.comps e).filterMap tagOf
        = specTagTable (attachedTree a).dataOf)
    ∧ ((addObject3DComponent emptyWorld 0
          { obj3d := Obj3DArg.built (OTree.mk { id := 1, isMesh := true, isSkinnedMesh := true } []) }).1.comps 0).filterMap tagOf
        = [TagC.mesh, TagC.skinnedMesh]
    ∧ ((addObject3DComponent emptyWorld 0
          { obj3d := Obj3DArg.built (OTree.mk { id := 1 } []) }).1.comps 0).filterMap tagOf
        = [] := by
  refine ⟨?_, rfl, rfl⟩
  intro w e a h
  rw [attach_comps_fresh w e a h]
  have h1 : tagOf (Comp.object3D (some (attachedTree a).idOf)) = none := rfl
  simp only [List.filterMap_cons, h1, List.filterMap_map]
  have hco : (tagOf ∘ Comp.tag) = some := rfl
  rw [hco, List.filterMap_some]

/-- Witness for C1 discharging the fresh-entity hypothesis at a concrete
world and node. -/
theorem C1_tag_dispatch_witness :
    emptyWorld.comps 0 = []
    ∧ ((addObject3DComponent emptyWorld 0
        { obj3d := Obj3DArg.built (OTree.mk { id := 1, isLight := true, isPointLight := true } []) }).1.comps 0).filterMap tagOf
      = specTagTable (attachedTree
        { obj3d := Obj3DArg.built (OTree.mk { id := 1, isLight := true, isPointLight := true } []) }).dataOf :=
  ⟨rfl, C1_tag_dispatch.1 emptyWorld 0
    { obj3d := Obj3DArg.built (OTree.mk { id := 1, isLight := true, isPointLight := true } []) } rfl⟩

theorem setFields_self (fs : List (String × JSVal)) (k : String) (v : JSVal)
    (h : assocField fs k = some v) : setFields fs k v = fs := by
  induction fs with
  | nil => simp [assocField] at h
  | cons hd tl ih =>
    obtain ⟨k2, w⟩ := hd
    by_cases hk : k2 = k
    · simp only [assocField, if_pos hk] at h
      simp only [setFields, if_pos hk]
      rw [Option.some_inj.mp h]
    · simp only [assocField, if_neg hk] at h
      simp only [setFields, if_neg hk]
      rw [ih h]

theorem setField_self (subj : JSVal) (p : String) (sub : JSVal)
    (h : lookupField subj p = some sub) : setField subj p sub = subj := by
  cases subj <;> simp [lookupField] at h
  case obj fs => simp [setField, setFields_self fs p sub h]

theorem applyDeep_misses (segs : List String) : ∀ (subj v : JSVal),
    missesIntermediate subj segs = true → applyDeep subj segs v = (subj, false) := by
  induction segs with
  | nil =>
    intro subj v h
    simp [missesIntermediate] at h
  | cons p rest ih =>
    intro subj v h
    by_cases hf : falsy subj = true
    · simp [missesIntermediate, hf] at h
    · cases rest with
      | nil => simp [missesIntermediate, hf] at h
      | cons q rs =>
        cases hl : lookupField subj p with
        | none =>
          unfold applyDeep
          simp [hf, hl]
        | some sub =>
          have hm : missesIntermediate sub (q :: rs) = true := by
            simpa [missesIntermediate, hf, hl] using h
          unfold applyDeep
          simp only [hf, Bool.false_eq_true, if_neg, ite_false, hl]
          rw [ih sub v hm]
          simp [setField_self subj p sub hl]

theorem applyDeep_eq_rec (subj : JSVal) (p q : String) (rs : List String) (v sub : JSVal)
    (hf : ¬ falsy subj = true) (hl : lookupField subj p = some sub) :
    applyDeep subj (p :: q :: rs) v
      = (setField subj p (applyDeep sub (q :: rs) v).1, (applyDeep sub (q :: rs) v).2) := by
  rw [applyDeep]
  simp [hf, hl]

theorem reachesFalsy_eq_rec (subj : JSVal) (p q : String) (rs : List String) (sub : JSVal)
    (hf : ¬ falsy subj = true) (hl : lookupField subj p = some sub) :
    reachesFalsy subj (p :: q :: rs) = reachesFalsy sub (q :: rs) := by
  rw [reachesFalsy]
  simp [hf, hl]

theorem applyDeep_warn (segs : List String) : ∀ (subj v : JSVal),
    (applyDeep subj segs v).2 = reachesFalsy subj segs := by
  induction segs with
  | nil =>
    intro subj v
    by_cases hf : falsy subj = true <;> simp [applyDeep, reachesFalsy, hf]
  | cons p rest ih =>
    intro subj v
    by_cases hf : falsy subj = true
    · simp [applyDeep, reachesFalsy, hf]
    · cases hl : lookupField subj p with
      | none => simp [applyDeep, reachesFalsy, hf, hl]
      | some sub =>
        cases rest with
        | nil => simp [applyDeep, reachesFalsy, hf, hl]
        | cons q rs =>
          rw [applyDeep_eq_rec subj p q rs v sub hf hl,
            reachesFalsy_eq_rec subj p q rs sub hf hl]
          exact ih sub v

theorem applyArgsStep_misses (fs : List (String × JSVal)) (kv : String × JSVal)
    (h : missesIntermediate (JSVal.obj fs) (parseSegs kv.1) = true) :
    applyArgsStep fs kv = (fs, false) := by
  unfold applyArgsStep
  rw [applyDeep_misses _ _ _ h]

/-- Claim C3: a property-map entry whose dotted path has a missing
intermediate segment leaves the attachment entirely unaffected: the
resulting call of addObject3DComponent is the same as if the entry were
absent, no exception occurs (the attachment is a total function), the entry
emits no warning, and in general the warning of an applyDeepValue call
fires exactly when the traversal reaches an absent (falsy) subject. -/
theorem C3_missing_segment_skipped (w : World) (e : Nat) (a : AddArgs)
    (l1 l2 : List (String × JSVal)) (k : String) (v : JSVal)
    (hargs : a.objArgs = some (l1 ++ (k, v) :: l2))
    (hmiss : missesIntermediate
        (JSVal.obj (applyArgsList (resolveObj a.obj3d).dataOf.props l1))
        (parseSegs k) = true) :
    addObject3DComponent w e a
      = addObject3DComponent w e { a with objArgs := some (l1 ++ l2) }
    ∧ (applyArgsStep (applyArgsList (resolveObj a.obj3d).dataOf.props l1) (k, v)).2 = false
    ∧ (∀ (s : JSVal) (segs : List String) (v2 : JSVal),
        (applyDeep s segs v2).2 = reachesFalsy s segs) := by
  obtain ⟨aobj, aargs, apar⟩ := a
  simp only at hargs hmiss
  refine ⟨?_, ?_, fun s segs v2 => applyDeep_warn segs s v2⟩
  · obtain ⟨d, cs, hdc⟩ : ∃ d cs, resolveObj aobj = OTree.mk d cs := by
      cases resolveObj aobj with
      | mk d cs => exact ⟨d, cs, rfl⟩
    rw [hdc] at hmiss
    simp only [OTree.dataOf] at hmiss
    have hat : attachedTree ⟨aobj, aargs, apar⟩
        = attachedTree ⟨aobj, some (l1 ++ l2), apar⟩ := by
      unfold attachedTree
      simp only [hargs, hdc]
      unfold applyArgsTree
      have hp : applyArgsList d.props (l1 ++ (k, v) :: l2)
          = applyArgsList d.props (l1 ++ l2) := by
        unfold applyArgsList
        rw [List.foldl_append, List.foldl_append]
        simp only [List.foldl]
        have hstep := applyArgsStep_misses (applyArgsList d.props l1) (k, v) ?_
        · unfold applyArgsList at hstep
          rw [hstep]
        · exact hmiss
      dsimp only []
      rw [hp]
    show addObject3DComponent w e ⟨aobj, aargs, apar⟩
      = addObject3DComponent w e ⟨aobj, some (l1 ++ l2), apar⟩
    unfold addObject3DComponent
    rw [hat]
  · obtain ⟨d, cs, hdc⟩ : ∃ d cs, resolveObj aobj = OTree.mk d cs := by
      cases resolveObj aobj with
      | mk d cs => exact ⟨d, cs, rfl⟩
    rw [hdc] at hmiss
    simp only [OTree.dataOf] at hmiss
    have hstep := applyArgsStep_misses (applyArgsList d.props l1) (k, v) hmiss
    rw [hdc]
    simp only [OTree.dataOf]
    rw [hstep]

/-- Witness for C3: a concrete attachment whose second path segment is
missing on a numeric sub-value. -/
theorem C3_missing_segment_skipped_witness :
    (missesIntermediate
      (JSVal.obj (applyArgsList
        (resolveObj (Obj3DArg.built (OTree.mk { id := 1, props := [("a", JSVal.obj [("x", JSVal.num 1)])] } []))).dataOf.props []))
      (parseSegs "a.b.c") = true)
    ∧ addObject3DComponent emptyWorld 0
        { obj3d := Obj3DArg.built (OTree.mk { id := 1, props := [("a", JSVal.obj [("x", JSVal.num 1)])] } []),
          objArgs := some ([] ++ ("a.b.c", JSVal.num 5) :: []) }
      = addObject3DComponent emptyWorld 0
        { obj3d := Obj3DArg.built (OTree.mk { id := 1, props := [("a", JSVal.obj [("x", JSVal.num 1)])] } []),
          objArgs := some ([] ++ []) } := by
  have hm : missesIntermediate
      (JSVal.obj (applyArgsList
        (resolveObj (Obj3DArg.built (OTree.mk { id := 1, props := [("a", JSVal.obj [("x", JSVal.num 1)])] } []))).dataOf.props
        []))
      (parseSegs "a.b.c") = true := by decide
  refine ⟨hm, ?_⟩
  exact (C3_missing_segment_skipped emptyWorld 0
    { obj3d := Obj3DArg.built (OTree.mk { id := 1, props := [("a", JSVal.obj [("x", JSVal.num 1)])] } []),
      objArgs := some ([] ++ ("a.b.c", JSVal.num 5) :: []) }
    [] [] "a.b.c" (JSVal.num 5) rfl hm).1

theorem omapF_singleton (g : NodeData → NodeData) (t : OTree) :
    omapF g [t] = [omapT g t] := by
  cases t
  simp [omapF, omapT]

theorem nodesF_omapF (g : NodeData → NodeData) (f : List OTree) :
    nodesF (omapF g f) = (nodesF f).map g := by
  induction f using nodesF.induct with
  | case1 => simp [omapF, nodesF]
  | case2 d cs ts ih1 ih2 => simp [omapF, nodesF, ih1, ih2]

theorem attach_scene_parent_none (w : World) (e : Nat) (a : AddArgs)
    (h : a.parentEntity = none) :
    (addObject3DComponent w e a).1.scene
      = w.scene ++ [setRootEntity (attachedTree a) e] := by
  unfold addObject3DComponent
  rw [h]
  dsimp only []
  rw [(foldl_addTagW_fields (getComponentTags (attachedTree a).dataOf)
    (addComponentW w e (Comp.object3D (some (attachedTree a).idOf))) e).2.2.2.2]
  rfl

/-- Counterexample to claim C4 as stated: a mesh whose material carries the
lightmap flag and whose receiveShadow flag was already set keeps receiving
shadows after attachment; the claim demands receiveShadow equal to false.
The scene after attaching such a single-node subtree holds exactly one node
with castShadow true and receiveShadow true. -/
theorem C4_shadow_policy_counterexample :
    ((addObject3DComponent emptyWorld 0
        { obj3d := Obj3DArg.built (OTree.mk
            { id := 1, type := "Mesh", receiveShadow := true,
              material := some { mozLightmap := true } } []) }).1.scene).map
      (fun t => (t.dataOf.castShadow, t.dataOf.receiveShadow)) = [(true, true)] := rfl

/-- Claim C4, amended: the shadow traverse of addObject3DComponent visits
every node of the subtree; a node of renderable-geometry subtype gets
castShadow set to true, and gets receiveShadow set to true unless its
material carries the lightmap flag, in which case receiveShadow is left
unchanged (in particular it stays false when it was false, but it is not
forced to false); other nodes are untouched.  The attached subtree is the
shadow image of the node after property application, and with no parent
entity it is appended under the scene root with the entity back-reference
set. -/
theorem C4_shadow_policy_amended (w : World) (e : Nat) (a : AddArgs) :
    (∀ d : NodeData, (d.type = "Mesh" ∨ d.type = "SkinnedMesh") →
      (shadowData d).castShadow = true
      ∧ (hasLightmap d = true → (shadowData d).receiveShadow = d.receiveShadow)
      ∧ (hasLightmap d = false → (shadowData d).receiveShadow = true))
    ∧ (∀ d : NodeData, ¬(d.type = "Mesh" ∨ d.type = "SkinnedMesh") → shadowData d = d)
    ∧ nodesF [attachedTree a]
        = (nodesF [applyArgsTree (resolveObj a.obj3d) a.objArgs]).map shadowData
    ∧ (a.parentEntity = none →
        (addObject3DComponent w e a).1.scene
          = w.scene ++ [setRootEntity (attachedTree a) e]) := by
  refine ⟨?_, ?_, ?_, ?_⟩
  · intro d hd
    unfold shadowData
    rw [if_pos hd]
    refine ⟨?_, ?_, ?_⟩
    · by_cases hl : hasLightmap { d with castShadow := true } = false
      · rw [if_pos hl]
      · rw [if_neg hl]
    · intro hlm
      have hl : ¬ hasLightmap { d with castShadow := true } = false := by
        simp only [hasLightmap] at hlm ⊢
        simp [hlm]
      rw [if_neg hl]
    · intro hlm
      have hl : hasLightmap { d with castShadow := true } = false := by
        simp only [hasLightmap] at hlm ⊢
        exact hlm
      rw [if_pos hl]
  · intro d hd
    unfold shadowData
    rw [if_neg hd]
  · show nodesF [omapT shadowData (applyArgsTree (resolveObj a.obj3d) a.objArgs)]
      = (nodesF [applyArgsTree (resolveObj a.obj3d) a.objArgs]).map shadowData
    rw [← omapF_singleton, nodesF_omapF]
  · intro h
    exact attach_scene_parent_none w e a h

/-- Witness for C4 discharging the subtype and lightmap hypotheses at
concrete nodes. -/
theorem C4_shadow_policy_amended_witness :
    ((shadowData { id := 1, type := "Mesh", receiveShadow := true, material := some { mozLightmap := true } }).castShadow = true
      ∧ (shadowData { id := 1, type := "Mesh", receiveShadow := true, material := some { mozLightmap := true } }).receiveShadow
        = ({ id := 1, type := "Mesh", receiveShadow := true, material := some { mozLightmap := true } } : NodeData).receiveShadow)
    ∧ (addObject3DComponent emptyWorld 0
        { obj3d := Obj3DArg.built (OTree.mk { id := 1 } []) }).1.scene
      = emptyWorld.scene ++ [setRootEntity (attachedTree
          { obj3d := Obj3DArg.built (OTree.mk { id := 1 } []) }) 0] := by
  refine ⟨⟨?_, ?_⟩, ?_⟩
  · exact ((C4_shadow_policy_amended emptyWorld 0
      { obj3d := Obj3DArg.built (OTree.mk { id := 1 } []) }).1
      { id := 1, type := "Mesh", receiveShadow := true, material := some { mozLightmap := true } }
      (Or.inl rfl)).1
  · exact ((C4_shadow_policy_amended emptyWorld 0
      { obj3d := Obj3DArg.built (OTree.mk { id := 1 } []) }).1
      { id := 1, type := "Mesh", receiveShadow := true, material := some { mozLightmap := true } }
      (Or.inl rfl)).2.1 rfl
  · exact (C4_shadow_policy_amended emptyWorld 0
      { obj3d := Obj3DArg.built (OTree.mk { id := 1 } []) }).2.2.2 rfl

theorem tagRemovalLoop_eq_filter : ∀ (n : Nat) (l : List Comp), n ≤ l.length →
    tagRemovalLoop l n
      = (l.take n).filter (fun c => !isObject3DTagComponent (compTypeOf c)) ++ l.drop n := by
  intro n
  induction n with
  | zero => intro l _; simp [tagRemovalLoop]
  | succ i ih =>
    intro l h
    have hi : i < l.length := h
    show tagRemovalLoop (tagRemovalStep l i) i = _
    unfold tagRemovalStep
    rw [List.getElem?_eq_getElem hi]
    dsimp only []
    by_cases hc : isObject3DTagComponent (compTypeOf l[i]) = true
    · rw [if_pos hc]
      have hlen : i ≤ (l.eraseIdx i).length := by
        rw [List.length_eraseIdx]
        simp [hi]
        omega
      rw [ih (l.eraseIdx i) hlen, List.eraseIdx_eq_take_drop_succ]
      have hltk : (l.take i).length = i := by simp [hi.le]
      have htk : (l.take i ++ l.drop (i + 1)).take i = l.take i := by
        rw [List.take_append_eq_append_take, hltk]
        simp
      have hdr : (l.take i ++ l.drop (i + 1)).drop i = l.drop (i + 1) := by
        rw [List.drop_append_eq_append_drop, hltk]
        simp
      rw [htk, hdr, List.take_succ, List.getElem?_eq_getElem hi]
      simp only [Option.toList_some, List.filter_append]
      have hone : List.filter (fun c => !isObject3DTagComponent (compTypeOf c)) [l[i]] = [] := by
        simp [hc]
      rw [hone]
      simp
    · rw [if_neg hc]
      rw [ih l hi.le]
      rw [List.take_succ, List.getElem?_eq_getElem hi]
      have hdr : l.drop i = l[i] :: l.drop (i + 1) := List.drop_eq_getElem_cons hi
      rw [hdr]
      simp only [Option.toList_some, List.filter_append]
      have hone : List.filter (fun c => !isObject3DTagComponent (compTypeOf c)) [l[i]] = [l[i]] := by
        simp [hc]
      rw [hone]
      simp

theorem cleaned_comps_nil (l : List Comp) :
    tagRemovalLoop (removeCompType l CompType.object3D)
      (removeCompType l CompType.object3D).length = [] := by
  rw [tagRemovalLoop_eq_filter _ _ le_rfl]
  simp only [List.take_length, List.drop_length, List.append_nil]
  unfold removeCompType
  rw [List.filter_filter]
  rw [List.filter_eq_nil_iff]
  intro c _
  cases c <;> simp [compTypeOf, isObject3DTagComponent]

theorem cleanedComps_self (comps : Nat → List Comp) (e : Nat) :
    cleanedComps comps e e = [] := by
  unfold cleanedComps
  rw [if_pos rfl]
  exact cleaned_comps_nil (comps e)

theorem extractF_idOf (i : Nat) (f : List OTree) : ∀ (t : OTree) (f2 : List OTree),
    extractF i f = some (t, f2) → t.idOf = i := by
  induction f using extractF.induct i with
  | case1 => intro t f2 h; simp [extractF] at h
  | case2 d cs ts hid =>
    intro t f2 h
    unfold extractF at h
    rw [if_pos hid] at h
    simp only [Option.some_inj] at h
    obtain ⟨h1, _⟩ := Prod.mk.injEq .. ▸ h
    rw [← h1]
    simp [OTree.idOf, hid]
  | case3 d cs ts hid sub cs2 hcs ih =>
    intro t f2 h
    unfold extractF at h
    rw [if_neg hid, hcs] at h
    simp only [Option.some_inj] at h
    obtain ⟨h1, _⟩ := Prod.mk.injEq .. ▸ h
    rw [← h1]
    exact ih sub cs2 hcs
  | case4 d cs ts hid hcs sub ts2 hts ih1 ih2 =>
    intro t f2 h
    unfold extractF at h
    rw [if_neg hid, hcs, hts] at h
    simp only [Option.some_inj] at h
    obtain ⟨h1, _⟩ := Prod.mk.injEq .. ▸ h
    rw [← h1]
    exact ih2 sub ts2 hts
  | case5 d cs ts hid hcs hts ih1 ih2 =>
    intro t f2 h
    unfold extractF at h
    rw [if_neg hid, hcs, hts] at h
    simp at h

theorem idsF_cons (d : NodeData) (cs ts : List OTree) :
    idsF (OTree.mk d cs :: ts) = d.id :: (idsF cs ++ idsF ts) := by
  simp [idsF, nodesF]

theorem extractF_isSome (i : Nat) (f : List OTree) : i ∈ idsF f →
    (extractF i f).isSome = true := by
  induction f using extractF.induct i with
  | case1 => intro h; simp [idsF, nodesF] at h
  | case2 d cs ts hid =>
    intro _
    unfold extractF
    rw [if_pos hid]
    rfl
  | case3 d cs ts hid sub cs2 hcs ih =>
    intro _
    unfold extractF
    rw [if_neg hid, hcs]
    rfl
  | case4 d cs ts hid hcs sub ts2 hts ih1 ih2 =>
    intro _
    unfold extractF
    rw [if_neg hid, hcs, hts]
    rfl
  | case5 d cs ts hid hcs hts ih1 ih2 =>
    intro h
    rw [idsF_cons] at h
    rcases List.mem_cons.mp h with h | h
    · exact absurd h.symm hid
    · rcases List.mem_append.mp h with h | h
      · have hx := ih1 h
        rw [hcs] at hx
        simp at hx
      · have hx := ih2 h
        rw [hts] at hx
        simp at hx

theorem clearRootEntity_entity (t : OTree) : (clearRootEntity t).dataOf.entity = none := by
  cases t
  rfl

theorem sceneDetachStep_unparent_some (nid : Nat) (scene : List OTree)
    (h : nid ∈ idsF scene) :
    ∃ t rest, sceneDetachStep nid true scene = some (t, rest) := by
  unfold sceneDetachStep
  cases htop : removeTopF nid scene with
  | some pr => exact ⟨pr.1, pr.2, rfl⟩
  | none =>
    have hsome := extractF_isSome nid scene h
    cases hext : extractF nid scene with
    | none => rw [hext] at hsome; simp at hsome
    | some pr =>
      refine ⟨pr.1, pr.2, ?_⟩
      dsimp only []
      simp [hext]

theorem removeO3D_eq_detached (w : World) (e nid : Nat) (unp : Bool) (t : OTree)
    (rest : List OTree) (hget : getO3DComp w e = some (some nid))
    (hstep : sceneDetachStep nid unp w.scene = some (t, rest)) :
    removeObject3DComponent w e unp
      = some ({ w with scene := rest, comps := cleanedComps w.comps e },
          some (clearRootEntity t)) := by
  unfold removeObject3DComponent
  rw [hget]
  dsimp only []
  rw [hstep]

/-- Claim C6: for an entity holding a Scene-Node Reference whose node sits
in the scene graph, detachment succeeds, a subsequent node lookup returns
an absent result, the entity carries zero components whose class is marked
as an Object3D-subtype tag, and the back-reference of the detached node is
cleared. -/
theorem C6_detach_then_lookup (w : World) (e : Nat) (nid : Nat)
    (hc : getO3DComp w e = some (some nid)) (hin : nid ∈ idsF w.scene) :
    ∃ (w2 : World) (t : OTree),
      removeObject3DComponent w e true = some (w2, some t)
      ∧ getObject3D w2 e = none
      ∧ (∀ c ∈ w2.comps e, isObject3DTagComponent (compTypeOf c) = false)
      ∧ t.dataOf.entity = none := by
  obtain ⟨t, rest, hstep⟩ := sceneDetachStep_unparent_some nid w.scene hin
  refine ⟨_, _, removeO3D_eq_detached w e nid true t rest hc hstep, ?_, ?_, ?_⟩
  · unfold getObject3D getO3DComp
    dsimp only []
    rw [cleanedComps_self]
    rfl
  · intro c hcm
    dsimp only [] at hcm
    rw [cleanedComps_self] at hcm
    simp at hcm
  · exact clearRootEntity_entity t

/-- Witness for C6 at a concrete world: entity 7 holds node 1, a direct
child of the scene root. -/
theorem C6_detach_then_lookup_witness :
    (getO3DComp
      { comps := fun x => if x = 7 then [Comp.object3D (some 1), Comp.tag TagC.mesh] else [],
        alive := fun _ => true, removalLog := [],
        scene := [OTree.mk { id := 1, entity := some 7 } []] } 7 = some (some 1))
    ∧ ∃ (w2 : World) (t : OTree),
        removeObject3DComponent
          { comps := fun x => if x = 7 then [Comp.object3D (some 1), Comp.tag TagC.mesh] else [],
            alive := fun _ => true, removalLog := [],
            scene := [OTree.mk { id := 1, entity := some 7 } []] } 7 true = some (w2, some t)
        ∧ getObject3D w2 7 = none
        ∧ (∀ c ∈ w2.comps 7, isObject3DTagComponent (compTypeOf c) = false)
        ∧ t.dataOf.entity = none := by
  refine ⟨rfl, ?_⟩
  exact C6_detach_then_lookup _ 7 1 rfl (by simp [idsF, nodesF])

theorem getO3DComp_attach_fresh (w : World) (e : Nat) (a : AddArgs) (h : w.comps e = []) :
    getO3DComp (addObject3DComponent w e a).1 e = some (some (attachedTree a).idOf) := by
  unfold getO3DComp
  rw [attach_comps_fresh w e a h]
  rfl

theorem removeO3D_comps_empty (w : World) (e : Nat) (nid : Nat)
    (hget : getO3DComp w e = some (some nid)) :
    ∃ r1 : World × Option OTree,
      removeObject3DComponent w e true = some r1 ∧ r1.1.comps e = [] := by
  unfold removeObject3DComponent
  rw [hget]
  dsimp only []
  cases hstep : sceneDetachStep nid true w.scene with
  | some pr =>
    obtain ⟨t, rest⟩ := pr
    dsimp only []
    exact ⟨_, rfl, cleanedComps_self w.comps e⟩
  | none =>
    dsimp only []
    exact ⟨_, rfl, cleanedComps_self w.comps e⟩

/-- Claim C7: attaching a node, detaching it and attaching a second node
leaves the entity with exactly one Scene-Node Reference, holding the second
node, and exactly the dispatch-table tag set of the second node, with no
residue of the first. -/
theorem C7_attach_detach_attach (w : World) (e : Nat) (a1 a2 : AddArgs)
    (h : w.comps e = []) :
    ∃ r1 : World × Option OTree,
      removeObject3DComponent (addObject3DComponent w e a1).1 e true = some r1
      ∧ (addObject3DComponent r1.1 e a2).1.comps e
          = Comp.object3D (some (attachedTree a2).idOf)
            :: (specTagTable (attachedTree a2).dataOf).map Comp.tag := by
  obtain ⟨r1, hr1, hr1e⟩ := removeO3D_comps_empty (addObject3DComponent w e a1).1 e
    (attachedTree a1).idOf (getO3DComp_attach_fresh w e a1 h)
  exact ⟨r1, hr1, attach_comps_fresh r1.1 e a2 hr1e⟩

/-- Witness for C7 at a concrete world and nodes. -/
theorem C7_attach_detach_attach_witness :
    emptyWorld.comps 3 = []
    ∧ ∃ r1 : World × Option OTree,
        removeObject3DComponent (addObject3DComponent emptyWorld 3
          { obj3d := Obj3DArg.built (OTree.mk { id := 1, isMesh := true } []) }).1 3 true
          = some r1
        ∧ (addObject3DComponent r1.1 3
            { obj3d := Obj3DArg.built (OTree.mk { id := 2, isSprite := true } []) }).1.comps 3
            = Comp.object3D (some (attachedTree
                { obj3d := Obj3DArg.built (OTree.mk { id := 2, isSprite := true } []) }).idOf)
              :: (specTagTable (attachedTree
                { obj3d := Obj3DArg.built (OTree.mk { id := 2, isSprite := true } []) }).dataOf).map Comp.tag :=
  ⟨rfl, C7_attach_detach_attach emptyWorld 3
    { obj3d := Obj3DArg.built (OTree.mk { id := 1, isMesh := true } []) }
    { obj3d := Obj3DArg.built (OTree.mk { id := 2, isSprite := true } []) } rfl⟩

theorem assocField_setFields_self (fs : List (String × JSVal)) (k : String) (v : JSVal) :
    assocField (setFields fs k v) k = some v := by
  induction fs with
  | nil => simp [setFields, assocField]
  | cons hd tl ih =>
    obtain ⟨k2, w⟩ := hd
    by_cases hk : k2 = k
    · simp [setFields, assocField, hk]
    · simp only [setFields, if_neg hk, assocField]
      exact ih

theorem assocField_setFields_other (fs : List (String × JSVal)) (k q : String) (v : JSVal)
    (h : q ≠ k) : assocField (setFields fs k v) q = assocField fs q := by
  induction fs with
  | nil =>
    simp [setFields, assocField, h, Ne.symm h]
  | cons hd tl ih =>
    obtain ⟨k2, w⟩ := hd
    by_cases hk : k2 = k
    · simp only [setFields, if_pos hk, assocField]
      by_cases hq : k2 = q
      · exact absurd (hq.symm.trans hk) h
      · rw [if_neg hq, if_neg hq]
    · simp only [setFields, if_neg hk, assocField]
      by_cases hq : k2 = q
      · rw [if_pos hq, if_pos hq]
      · rw [if_neg hq, if_neg hq]
        exact ih

theorem lookupField_some_obj (subj : JSVal) (p : String) (sub : JSVal)
    (h : lookupField subj p = some sub) : ∃ fs, subj = JSVal.obj fs := by
  cases subj
  case obj fs => exact ⟨fs, rfl⟩
  all_goals simp [lookupField] at h

theorem lookupField_setField_self (fs : List (String × JSVal)) (p : String) (x : JSVal) :
    lookupField (setField (JSVal.obj fs) p x) p = some x := by
  show assocField (setFields fs p x) p = some x
  exact assocField_setFields_self fs p x

theorem lookupField_setField_other (fs : List (String × JSVal)) (p q : String) (x : JSVal)
    (h : q ≠ p) :
    lookupField (setField (JSVal.obj fs) p x) q = lookupField (JSVal.obj fs) q := by
  show assocField (setFields fs p x) q = assocField fs q
  exact assocField_setFields_other fs p q x h

theorem readPath_cons_of_lookup (v2 : JSVal) (p : String) (rest : List String) (sub : JSVal)
    (h : lookupField v2 p = some sub) : readPath v2 (p :: rest) = readPath sub rest := by
  show (match lookupField v2 p with
    | some s => readPath s rest
    | none => none) = readPath sub rest
  rw [h]

theorem readPath_cons_of_lookup_none (v2 : JSVal) (p : String) (rest : List String)
    (h : lookupField v2 p = none) : readPath v2 (p :: rest) = none := by
  show (match lookupField v2 p with
    | some s => readPath s rest
    | none => none) = none
  rw [h]

theorem applyDeep_eq_assign (subj : JSVal) (p : String) (v sub : JSVal)
    (hf : ¬ falsy subj = true) (hl : lookupField subj p = some sub) :
    applyDeep subj [p] v
      = (setField subj p (if isColorVal sub && isNumOrStr v then mkColor v else v), false) := by
  rw [applyDeep]
  simp [hf, hl]

theorem chainRelated_nil_right (segs : List String) : chainRelated segs [] = true := by
  cases segs <;> rfl

theorem applyDeep_read_other : ∀ (segs2 : List String) (subj v : JSVal) (segs1 : List String),
    chainRelated segs1 segs2 = false →
    readPath (applyDeep subj segs2 v).1 segs1 = readPath subj segs1 := by
  intro segs2
  induction segs2 with
  | nil =>
    intro subj v segs1 h
    rw [chainRelated_nil_right] at h
    simp at h
  | cons q r2 ih =>
    intro subj v segs1 h
    by_cases hf : falsy subj = true
    · rw [applyDeep, if_pos hf]
    · cases hl : lookupField subj q with
      | none =>
        rw [applyDeep, if_neg hf]
        dsimp only []
        rw [hl]
      | some sub =>
        obtain ⟨fs, rfl⟩ := lookupField_some_obj subj q sub hl
        cases segs1 with
        | nil =>
          simp [chainRelated] at h
        | cons p r1 =>
          by_cases hpq : p = q
          · subst hpq
            have hrel : chainRelated r1 r2 = false := by
              have heq : chainRelated (p :: r1) (p :: r2) = (p == p && chainRelated r1 r2) := rfl
              rw [heq] at h
              simpa using h
            cases r2 with
            | nil =>
              rw [chainRelated_nil_right] at hrel
              simp at hrel
            | cons q2 rs2 =>
              rw [applyDeep_eq_rec _ p q2 rs2 v sub hf hl]
              dsimp only []
              rw [readPath_cons_of_lookup _ p r1 (applyDeep sub (q2 :: rs2) v).1
                (lookupField_setField_self fs p _)]
              rw [readPath_cons_of_lookup _ p r1 sub hl]
              exact ih sub v r1 hrel
          · have hnp : p ≠ q := hpq
            cases r2 with
            | nil =>
              rw [applyDeep_eq_assign _ q v sub hf hl]
              dsimp only []
              have hlk := lookupField_setField_other fs q p
                (if isColorVal sub && isNumOrStr v then mkColor v else v) hnp
              cases hlp : lookupField (JSVal.obj fs) p with
              | none =>
                rw [readPath_cons_of_lookup_none _ p r1 (hlk.trans hlp),
                  readPath_cons_of_lookup_none _ p r1 hlp]
              | some s =>
                rw [readPath_cons_of_lookup _ p r1 s (hlk.trans hlp),
                  readPath_cons_of_lookup _ p r1 s hlp]
            | cons q2 rs2 =>
              rw [applyDeep_eq_rec _ q q2 rs2 v sub hf hl]
              dsimp only []
              have hlk := lookupField_setField_other fs q p
                (applyDeep sub (q2 :: rs2) v).1 hnp
              cases hlp : lookupField (JSVal.obj fs) p with
              | none =>
                rw [readPath_cons_of_lookup_none _ p r1 (hlk.trans hlp),
                  readPath_cons_of_lookup_none _ p r1 hlp]
              | some s =>
                rw [readPath_cons_of_lookup _ p r1 s (hlk.trans hlp),
                  readPath_cons_of_lookup _ p r1 s hlp]

theorem applyDeep_obj (fs : List (String × JSVal)) (segs : List String) (v : JSVal) :
    ∃ fs2, (applyDeep (JSVal.obj fs) segs v).1 = JSVal.obj fs2 := by
  have hf : ¬ falsy (JSVal.obj fs) = true := by simp [falsy]
  cases segs with
  | nil => exact ⟨fs, by rw [applyDeep]; simp [hf]⟩
  | cons p rest =>
    cases hl : lookupField (JSVal.obj fs) p with
    | none =>
      refine ⟨fs, ?_⟩
      rw [applyDeep, if_neg hf]
      dsimp only []
      rw [hl]
    | some sub =>
      cases rest with
      | nil =>
        refine ⟨setFields fs p (if isColorVal sub && isNumOrStr v then mkColor v else v), ?_⟩
        rw [applyDeep_eq_assign _ p v sub hf hl]
        rfl
      | cons q rs =>
        refine ⟨setFields fs p (applyDeep sub (q :: rs) v).1, ?_⟩
        rw [applyDeep_eq_rec _ p q rs v sub hf hl]
        rfl

theorem applyArgsList_read_preserve : ∀ (l2 : List (String × JSVal))
    (fs : List (String × JSVal)) (ksegs : List String),
    (∀ kv ∈ l2, chainRelated ksegs (parseSegs kv.1) = false) →
    readPath (JSVal.obj (applyArgsList fs l2)) ksegs = readPath (JSVal.obj fs) ksegs := by
  intro l2
  induction l2 with
  | nil => intro fs ksegs _; rfl
  | cons kv rest ih =>
    intro fs ksegs hni
    have hstep : applyArgsList fs (kv :: rest) = applyArgsList (applyArgsStep fs kv).1 rest := rfl
    rw [hstep, ih _ ksegs (fun kv2 hm => hni kv2 (List.mem_cons_of_mem _ hm))]
    rcases hpr : applyDeep (JSVal.obj fs) (parseSegs kv.1) kv.2 with ⟨v1, w1⟩
    obtain ⟨fs2, hfs2⟩ := applyDeep_obj fs (parseSegs kv.1) kv.2
    rw [hpr] at hfs2
    dsimp only [] at hfs2
    subst hfs2
    have hsv : (applyArgsStep fs kv).1 = fs2 := by
      unfold applyArgsStep
      rw [hpr]
    rw [hsv]
    have h2 := applyDeep_read_other (parseSegs kv.1) (JSVal.obj fs) kv.2 ksegs (hni kv (by simp))
    rw [hpr] at h2
    exact h2

theorem shadowData_props (d : NodeData) : (shadowData d).props = d.props := by
  unfold shadowData
  dsimp only []
  split_ifs <;> rfl

theorem attachedTree_props (a : AddArgs) (kvs : List (String × JSVal))
    (h : a.objArgs = some kvs) :
    (attachedTree a).dataOf.props
      = applyArgsList (resolveObj a.obj3d).dataOf.props kvs := by
  unfold attachedTree
  obtain ⟨d, cs, hdc⟩ : ∃ d cs, resolveObj a.obj3d = OTree.mk d cs := by
    cases h2 : resolveObj a.obj3d with
    | mk d cs => exact ⟨d, cs, rfl⟩
  rw [h, hdc]
  unfold applyArgsTree
  dsimp only []
  show (shadowData { d with props := applyArgsList d.props kvs }).props = _
  rw [shadowData_props]
  rfl

theorem applyArgsList_append (fs : List (String × JSVal)) (l1 l2 : List (String × JSVal)) :
    applyArgsList fs (l1 ++ l2) = applyArgsList (applyArgsList fs l1) l2 := by
  unfold applyArgsList
  rw [List.foldl_append]

theorem collectF_eq (f : List OTree) :
    collectF f = (nodesF f).filterMap (fun d => d.entity) := by
  induction f using collectF.induct with
  | case1 => simp [collectF, nodesF]
  | case2 d cs ts ih1 ih2 =>
    rw [collectF, ih1, ih2]
    simp only [nodesF, List.filterMap_cons, List.filterMap_append]
    cases d.entity <;> simp

theorem idOf_mem_idsF (t : OTree) : t.idOf ∈ idsF [t] := by
  cases t with
  | mk d cs =>
    simp [idsF, nodesF, OTree.idOf]

theorem extract_perm (i : Nat) (f : List OTree) : ∀ (t : OTree) (f2 : List OTree),
    extractF i f = some (t, f2) → (nodesF f2 ++ nodesF [t]).Perm (nodesF f) := by
  induction f using extractF.induct i with
  | case1 => intro t f2 h; simp [extractF] at h
  | case2 d cs ts hid =>
    intro t f2 h
    unfold extractF at h
    rw [if_pos hid] at h
    simp only [Option.some_inj] at h
    obtain ⟨h1, h2⟩ := Prod.mk.injEq .. ▸ h
    subst h1
    subst h2
    simp only [nodesF, List.append_nil]
    exact List.perm_append_comm
  | case3 d cs ts hid sub cs2 hcs ih =>
    intro t f2 h
    unfold extractF at h
    rw [if_neg hid, hcs] at h
    simp only [Option.some_inj] at h
    obtain ⟨h1, h2⟩ := Prod.mk.injEq .. ▸ h
    subst h1
    subst h2
    have ihp := ih sub cs2 hcs
    simp only [nodesF, List.cons_append]
    refine List.Perm.cons d ?_
    have p1 : ((nodesF cs2 ++ nodesF ts) ++ nodesF [sub]).Perm
        (nodesF cs2 ++ (nodesF [sub] ++ nodesF ts)) := by
      rw [List.append_assoc]
      exact List.Perm.append_left _ List.perm_append_comm
    have p2 : (nodesF cs2 ++ (nodesF [sub] ++ nodesF ts)).Perm
        (nodesF cs ++ nodesF ts) := by
      rw [← List.append_assoc]
      exact ihp.append_right _
    exact p1.trans p2
  | case4 d cs ts hid hcs sub ts2 hts ih1 ih2 =>
    intro t f2 h
    unfold extractF at h
    rw [if_neg hid, hcs, hts] at h
    simp only [Option.some_inj] at h
    obtain ⟨h1, h2⟩ := Prod.mk.injEq .. ▸ h
    subst h1
    subst h2
    have ihp := ih2 sub ts2 hts
    simp only [nodesF, List.cons_append]
    refine List.Perm.cons d ?_
    have p1 : ((nodesF cs ++ nodesF ts2) ++ nodesF [sub]).Perm
        (nodesF cs ++ (nodesF ts2 ++ nodesF [sub])) := by
      rw [List.append_assoc]
    exact p1.trans (List.Perm.append_left _ ihp)
  | case5 d cs ts hid hcs hts ih1 ih2 =>
    intro t f2 h
    unfold extractF at h
    rw [if_neg hid, hcs, hts] at h
    simp at h

theorem foldl_removeEntity_fields (bs : List Nat) (flag : Bool) : ∀ (w : World),
    (∀ x, (bs.foldl (fun wa b => removeEntity wa b flag) w).alive x
        = if x ∈ bs then false else w.alive x)
    ∧ (bs.foldl (fun wa b => removeEntity wa b flag) w).removalLog
        = w.removalLog ++ bs.map (fun b => (b, flag))
    ∧ (bs.foldl (fun wa b => removeEntity wa b flag) w).comps = w.comps
    ∧ (bs.foldl (fun wa b => removeEntity wa b flag) w).scene = w.scene := by
  induction bs with
  | nil =>
    intro w
    refine ⟨fun x => by simp, by simp, rfl, rfl⟩
  | cons b rest ih =>
    intro w
    simp only [List.foldl_cons]
    refine ⟨?_, ?_, ?_, ?_⟩
    · intro x
      rw [(ih (removeEntity w b flag)).1 x]
      show (if x ∈ rest then false else if x = b then false else w.alive x)
        = if x ∈ b :: rest then false else w.alive x
      by_cases h1 : x ∈ rest <;> by_cases h2 : x = b <;> simp [h1, h2]
    · rw [(ih (removeEntity w b flag)).2.1]
      show (w.removalLog ++ [(b, flag)]) ++ rest.map (fun x => (x, flag)) = _
      simp
    · rw [(ih (removeEntity w b flag)).2.2.1]
      rfl
    · rw [(ih (removeEntity w b flag)).2.2.2]
      rfl

theorem mem_idsF (f : List OTree) (d : NodeData) (h : d ∈ nodesF f) : d.id ∈ idsF f :=
  List.mem_map.mpr ⟨d, h, rfl⟩

theorem getObject3D_comps_congr (w1 w2 : World) (h : w1.comps = w2.comps) (b : Nat) :
    getObject3D w1 b = getObject3D w2 b := by
  unfold getObject3D getO3DComp
  rw [h]

/-- Claim C8: cascading removal of an entity owning a scene node, under the
well-formedness of the world (pairwise distinct node identities, alive and
mutually consistent back-references).  The node subtree is detached, every
back-referenced entity of the subtree is removed from the ECS with the same
immediate flag and its back-reference cleared, the removing entity itself
is removed, no remaining scene node references a destroyed entity, and no
remaining live entity references a detached node. -/
theorem C8_cascading_removal (w : World) (e rid : Nat) (flag : Bool)
    (hw1 : (idsF w.scene).Nodup)
    (hw2 : ∀ d ∈ nodesF w.scene, ∀ b, d.entity = some b →
        w.alive b = true ∧ getObject3D w b = some d.id)
    (hw3 : ∀ b, w.alive b = true → ∀ nid, getObject3D w b = some nid →
        ∃ d ∈ nodesF w.scene, d.id = nid ∧ d.entity = some b)
    (halive : w.alive e = true)
    (hroot : getObject3D w e = some rid) :
    ∃ (w2 : World) (t : OTree),
      remove w e flag = some (w2, some (omapT clearEnt t))
      ∧ extractF rid w.scene = some (t, w2.scene)
      ∧ (∀ d ∈ nodesF [t], ∀ b, d.entity = some b →
          (b, flag) ∈ w2.removalLog ∧ w2.alive b = false)
      ∧ (∀ d ∈ nodesF [omapT clearEnt t], d.entity = none)
      ∧ (∀ j ∈ idsF [t], j ∉ idsF w2.scene)
      ∧ ((e, flag) ∈ w2.removalLog ∧ w2.alive e = false)
      ∧ (∀ d ∈ nodesF w2.scene, ∀ b, d.entity = some b → w2.alive b = true)
      ∧ (∀ b, w2.alive b = true → ∀ nid, getObject3D w2 b = some nid →
          nid ∈ idsF w2.scene) := by
  have hget : getO3DComp w e = some (some rid) := by
    unfold getObject3D at hroot
    cases hg : getO3DComp w e with
    | none => rw [hg] at hroot; simp at hroot
    | some v =>
      cases v with
      | none => rw [hg] at hroot; simp at hroot
      | some n =>
        rw [hg] at hroot
        have hnr : n = rid := by simpa using hroot
        rw [hnr]
  have hhc : hasComponentW w e CompType.object3D = true := by
    obtain ⟨c, hcm, hcv⟩ := List.exists_of_findSome?_eq_some hget
    unfold hasComponentW
    rw [List.any_eq_true]
    refine ⟨c, hcm, ?_⟩
    cases c with
    | object3D v => rfl
    | tag t => simp at hcv
  have hroot2 : getObject3D w e = some rid := by
    unfold getObject3D
    rw [hget]
  obtain ⟨droot, hdmem, hdid, hdent⟩ := hw3 e halive rid hroot2
  have hridin : rid ∈ idsF w.scene := hdid ▸ mem_idsF w.scene droot hdmem
  have hsome := extractF_isSome rid w.scene hridin
  cases hext : extractF rid w.scene with
  | none => rw [hext] at hsome; simp at hsome
  | some pr =>
  obtain ⟨t, rest⟩ := pr
  have hperm : (nodesF rest ++ nodesF [t]).Perm (nodesF w.scene) :=
    extract_perm rid w.scene t rest hext
  have hpermids : ((idsF rest ++ idsF [t])).Perm (idsF w.scene) := by
    have hmm := hperm.map (fun d => d.id)
    simpa [idsF, List.map_append] using hmm
  have hnd : (idsF rest ++ idsF [t]).Nodup := hpermids.nodup_iff.mpr hw1
  have hdisj : ∀ j, j ∈ idsF [t] → j ∉ idsF rest := by
    obtain ⟨_, _, hdj⟩ := List.nodup_append.mp hnd
    intro j hjt hjr
    exact hdj hjr hjt
  have hidt : t.idOf = rid := extractF_idOf rid w.scene t rest hext
  set bs := collectF [t] with hbs
  have hbsmem : ∀ b, b ∈ bs ↔ ∃ d ∈ nodesF [t], d.entity = some b := by
    intro b
    rw [hbs, collectF_eq]
    simp [List.mem_filterMap]
  set w1 := bs.foldl (fun wa x => removeEntity wa x flag) w with hw1def
  have hff := foldl_removeEntity_fields bs flag w
  set w3 := removeEntity { w1 with scene := rest } e flag with hw3def
  have halive3 : ∀ x, w3.alive x
      = if x = e then false else if x ∈ bs then false else w.alive x := by
    intro x
    have hstep : w3.alive x = if x = e then false else w1.alive x := by
      rw [hw3def]
      rfl
    rw [hstep, hw1def, hff.1 x]
  have hlog3 : w3.removalLog
      = w.removalLog ++ bs.map (fun b => (b, flag)) ++ [(e, flag)] := by
    have hstep : w3.removalLog = w1.removalLog ++ [(e, flag)] := by
      rw [hw3def]
      rfl
    rw [hstep, hw1def, hff.2.1]
  have hcomps3 : w3.comps = w.comps := by
    have hstep : w3.comps = w1.comps := by
      rw [hw3def]
      rfl
    rw [hstep, hw1def, hff.2.2.1]
  have hscene3 : w3.scene = rest := by
    rw [hw3def]
    rfl
  have hrun : remove w e flag = some (w3, some (omapT clearEnt t)) := by
    unfold remove
    rw [if_pos hhc, hroot2]
    dsimp only []
    rw [hext]
  refine ⟨w3, t, hrun, ?_, ?_, ?_, ?_, ?_, ?_, ?_⟩
  · rw [hscene3]
  · intro d hd b hb
    have hbbs : b ∈ bs := (hbsmem b).mpr ⟨d, hd, hb⟩
    constructor
    · rw [hlog3]
      refine List.mem_append.mpr (Or.inl (List.mem_append.mpr (Or.inr ?_)))
      exact List.mem_map.mpr ⟨b, hbbs, rfl⟩
    · rw [halive3 b]
      by_cases hbe : b = e
      · rw [if_pos hbe]
      · rw [if_neg hbe, if_pos hbbs]
  · intro d hd
    rw [← omapF_singleton, nodesF_omapF] at hd
    obtain ⟨d0, _, rfl⟩ := List.mem_map.mp hd
    rfl
  · intro j hjt
    rw [hscene3]
    exact hdisj j hjt
  · constructor
    · rw [hlog3]
      exact List.mem_append.mpr (Or.inr (by simp))
    · rw [halive3 e, if_pos rfl]
  · intro d hd b hb
    rw [hscene3] at hd
    have hdin : d ∈ nodesF w.scene :=
      hperm.subset (List.mem_append.mpr (Or.inl hd))
    obtain ⟨hal, hlu⟩ := hw2 d hdin b hb
    have hdidr : d.id ∈ idsF rest := mem_idsF rest d hd
    have hbe : ¬ b = e := by
      intro hbe
      subst hbe
      rw [hroot2] at hlu
      have hlu2 : rid = d.id := by simpa using hlu
      have hmem : rid ∈ idsF [t] := hidt ▸ idOf_mem_idsF t
      rw [hlu2] at hmem
      exact hdisj d.id hmem hdidr
    have hbbs : ¬ b ∈ bs := by
      intro hbbs
      obtain ⟨n, hn, hnb⟩ := (hbsmem b).mp hbbs
      have hnin : n ∈ nodesF w.scene :=
        hperm.subset (List.mem_append.mpr (Or.inr hn))
      obtain ⟨_, hlu2⟩ := hw2 n hnin b hnb
      rw [hlu] at hlu2
      have hne : d.id = n.id := by simpa using hlu2
      have hnidt : n.id ∈ idsF [t] := mem_idsF [t] n hn
      rw [← hne] at hnidt
      exact hdisj d.id hnidt hdidr
    rw [halive3 b, if_neg hbe, if_neg hbbs]
    exact hal
  · intro b hb nid hnid
    have hbe : ¬ b = e := by
      intro hbe
      rw [halive3 b, if_pos hbe] at hb
      simp at hb
    have hbbs : ¬ b ∈ bs := by
      intro hbbs
      rw [halive3 b, if_neg hbe, if_pos hbbs] at hb
      simp at hb
    have halb : w.alive b = true := by
      rw [halive3 b, if_neg hbe, if_neg hbbs] at hb
      exact hb
    rw [getObject3D_comps_congr w3 w hcomps3 b] at hnid
    obtain ⟨d, hdmem2, hdid2, hdent2⟩ := hw3 b halb nid hnid
    rcases List.mem_append.mp (hperm.mem_iff.mpr hdmem2) with hin | hin
    · rw [hscene3]
      exact hdid2 ▸ mem_idsF rest d hin
    · exact absurd ((hbsmem b).mpr ⟨d, hin, hdent2⟩) hbbs

/-- Witness for C8 at the concrete cascade scenario: removing parent entity
10 removes child entities 11 and 12 and detaches the subtree. -/
theorem C8_cascading_removal_witness :
    (idsF cascadeWorld.scene).Nodup
    ∧ cascadeWorld.alive 10 = true
    ∧ getObject3D cascadeWorld 10 = some 1
    ∧ ∃ (w2 : World) (t : OTree),
        remove cascadeWorld 10 true = some (w2, some (omapT clearEnt t))
        ∧ extractF 1 cascadeWorld.scene = some (t, w2.scene)
        ∧ (∀ d ∈ nodesF [t], ∀ b, d.entity = some b →
            (b, true) ∈ w2.removalLog ∧ w2.alive b = false)
        ∧ (∀ d ∈ nodesF [omapT clearEnt t], d.entity = none)
        ∧ (∀ j ∈ idsF [t], j ∉ idsF w2.scene)
        ∧ ((10, true) ∈ w2.removalLog ∧ w2.alive 10 = false)
        ∧ (∀ d ∈ nodesF w2.scene, ∀ b, d.entity = some b → w2.alive b = true)
        ∧ (∀ b, w2.alive b = true → ∀ nid, getObject3D w2 b = some nid →
            nid ∈ idsF w2.scene) := by
  have hnodes : nodesF cascadeWorld.scene
      = [{ id := 1, entity := some 10 }, { id := 2, entity := some 11 },
         { id := 3, entity := some 12 }] := by
    simp [cascadeWorld, nodesF]
  have hw1c : (idsF cascadeWorld.scene).Nodup := by
    simp [cascadeWorld, idsF, nodesF]
  have hw2c : ∀ d ∈ nodesF cascadeWorld.scene, ∀ b, d.entity = some b →
      cascadeWorld.alive b = true ∧ getObject3D cascadeWorld b = some d.id := by
    intro d hd b hb
    rw [hnodes] at hd
    simp only [List.mem_cons, List.not_mem_nil, or_false] at hd
    rcases hd with rfl | rfl | rfl
    · have hb2 : (10 : Nat) = b := by simpa using hb
      subst hb2
      exact ⟨rfl, rfl⟩
    · have hb2 : (11 : Nat) = b := by simpa using hb
      subst hb2
      exact ⟨rfl, rfl⟩
    · have hb2 : (12 : Nat) = b := by simpa using hb
      subst hb2
      exact ⟨rfl, rfl⟩
  have hw3c : ∀ b, cascadeWorld.alive b = true → ∀ nid,
      getObject3D cascadeWorld b = some nid →
      ∃ d ∈ nodesF cascadeWorld.scene, d.id = nid ∧ d.entity = some b := by
    intro b hb nid hnid
    have hb2 : b = 10 ∨ b = 11 ∨ b = 12 := by
      simpa [cascadeWorld] using hb
    rcases hb2 with rfl | rfl | rfl
    · have hv : getObject3D cascadeWorld 10 = some 1 := rfl
      rw [hv] at hnid
      have hn : (1 : Nat) = nid := by simpa using hnid
      subst hn
      refine ⟨{ id := 1, entity := some 10 }, ?_, rfl, rfl⟩
      rw [hnodes]
      simp
    · have hv : getObject3D cascadeWorld 11 = some 2 := rfl
      rw [hv] at hnid
      have hn : (2 : Nat) = nid := by simpa using hnid
      subst hn
      refine ⟨{ id := 2, entity := some 11 }, ?_, rfl, rfl⟩
      rw [hnodes]
      simp
    · have hv : getObject3D cascadeWorld 12 = some 3 := rfl
      rw [hv] at hnid
      have hn : (3 : Nat) = nid := by simpa using hnid
      subst hn
      refine ⟨{ id := 3, entity := some 12 }, ?_, rfl, rfl⟩
      rw [hnodes]
      simp
  exact ⟨hw1c, rfl, rfl,
    C8_cascading_removal cascadeWorld 10 1 true hw1c hw2c hw3c rfl rfl⟩

end XR3
